import Mathlib

/-!
Shallow embedding of the `webservice` Go package (request-builder chain,
header bag, client factory, URL join) and proofs about its claims.

Go maps are reference types: several builders may alias one header map.
We model this with an explicit store of header maps; a `Ref` is an index
into the store. Value-receiver Go methods become pure Lean functions; a
method that writes through a map reference takes and returns the store.
Ambient effects (environment variables, the OS user database, the network
transport) are passed as explicit snapshot parameters, following the
source's own design note that they should be treated as pure inputs.
-/

namespace Webservice

/-! ### Header bag (model of net/http.Header backed by textproto.MIMEHeader) -/

/-- Characters allowed in a header field name (RFC 7230 token characters),
modelling textproto's validHeaderFieldByte. The apostrophe and backtick
are written via their code points. -/
def tokenExtraChars : List Char :=
  ['!', '#', '$', '%', '&', Char.ofNat 39, '*', '+', '-', '.', '^', '_',
   Char.ofNat 96, '|', '~']

def validHeaderFieldByte (c : Char) : Bool :=
  (('a' ≤ c && c ≤ 'z') || ('A' ≤ c && c ≤ 'Z') || ('0' ≤ c && c ≤ '9')
    || tokenExtraChars.contains c)

/-- The case transformation of textproto.CanonicalMIMEHeaderKey: upper-case
a letter at the start and after each hyphen, lower-case the rest. -/
def canonicalTransform : Bool → List Char → List Char
  | _, [] => []
  | up, c :: rest =>
    let c' := if up then c.toUpper else c.toLower
    c' :: canonicalTransform (c' == '-') rest

/-- Model of textproto.CanonicalMIMEHeaderKey: keys containing an invalid
byte are returned unchanged, otherwise canonicalised. -/
def CanonicalMIMEHeaderKey (s : String) : String :=
  if s.toList.all validHeaderFieldByte then
    String.mk (canonicalTransform true s.toList)
  else s

/-- Look up the ordered value list of a (canonical) key in an association
list; absent keys give the empty list, as a Go map read does. -/
def lookupVals (k : String) : List (String × List String) → List String
  | [] => []
  | (k0, vs) :: rest => if k0 == k then vs else lookupVals k rest

/-- Model of `m[key] = append(m[key], value)` on a Go map represented as an
association list with canonical keys. -/
def addVal (k v : String) : List (String × List String) → List (String × List String)
  | [] => [(k, [v])]
  | (k0, vs) :: rest =>
    if k0 == k then (k0, vs ++ [v]) :: rest else (k0, vs) :: addVal k v rest

/-- Model of map replacement as done by Set: the whole value list of the
key becomes the single given value. -/
def setVal (k v : String) : List (String × List String) → List (String × List String)
  | [] => [(k, [v])]
  | (k0, vs) :: rest =>
    if k0 == k then (k0, [v]) :: rest else (k0, vs) :: setVal k v rest

/-- A header map value: name → ordered list of values, names canonical. -/
structure Header where
  entries : List (String × List String)
deriving DecidableEq, Repr

/-- http.Header.Add: canonicalise the key, append the value. -/
def Header.add (h : Header) (key value : String) : Header :=
  ⟨addVal (CanonicalMIMEHeaderKey key) value h.entries⟩

/-- http.Header.Set: canonicalise the key, replace all values by this one. -/
def Header.set (h : Header) (key value : String) : Header :=
  ⟨setVal (CanonicalMIMEHeaderKey key) value h.entries⟩

/-- http.Header.Values: the ordered value list under the canonical key. -/
def Header.values (h : Header) (key : String) : List String :=
  lookupVals (CanonicalMIMEHeaderKey key) h.entries

/-- http.Header.Get: first value under the canonical key, or "". -/
def Header.get (h : Header) (key : String) : String :=
  match h.values key with
  | [] => ""
  | v :: _ => v

/-! ### Store of header maps (Go map reference semantics) -/

abbrev Ref := Nat

/-- The mutable heap of header maps; a Go `http.Header` variable is a `Ref`
into it. Reading an unallocated cell yields the empty map. -/
structure Store where
  cells : List Header
deriving DecidableEq, Repr

def Store.get (s : Store) (r : Ref) : Header := s.cells.getD r ⟨[]⟩

def Store.set (s : Store) (r : Ref) (h : Header) : Store := ⟨s.cells.set r h⟩

/-- Allocate a fresh header map (e.g. `make(http.Header)` or the copy made
by http.Header.Clone) and return its reference. -/
def Store.alloc (s : Store) (h : Header) : Store × Ref :=
  (⟨s.cells ++ [h]⟩, s.cells.length)

def Store.size (s : Store) : Nat := s.cells.length

/-! ### combineURL (from the URL utility file) -/

/-- Model of strings.HasPrefix over the character sequence. -/
def strStartsWith (s pre : String) : Bool := pre.data.isPrefixOf s.data

/-- Model of strings.HasSuffix over the character sequence. -/
def strEndsWith (s suf : String) : Bool := suf.data.isSuffixOf s.data

/-- Model of the byte slice s drop-first (endpoint with its first character
removed); the dropped character here is always the one-byte "/". -/
def strDropFirst (s : String) : String := String.mk (s.data.drop 1)

/-- Translation of combineURL: join base and endpoint with the slash rule
of the source (suffix/prefix tests on "/"). -/
def combineURL (base endpoint : String) : String :=
  if strEndsWith base "/" then
    if strStartsWith endpoint "/" then base ++ strDropFirst endpoint
    else base ++ endpoint
  else
    if strStartsWith endpoint "/" then base ++ endpoint
    else base ++ "/" ++ endpoint

/-! ### Contexts, requests, responses, transport -/

/-- Model of context.Context values: Background, deadline-wrapped contexts
as produced by context.WithTimeout, and a family of other opaque contexts.
A Go nil context is `Option.none` at use sites. -/
inductive GoCtx where
  | background : GoCtx
  | value : Nat → GoCtx
  | withDeadline : GoCtx → Int → GoCtx
deriving DecidableEq, Repr

/-- Model of the transport request (*http.Request): the bound context, the
method, the absolute URL, the header map reference (Go assigns the map by
reference) and the body bytes (byte slices are modelled as strings). -/
structure HttpRequest where
  ctx : GoCtx
  method : String
  url : String
  headerRef : Ref
  body : String
deriving DecidableEq, Repr

/-- A response body stream: fully reading it (io.ReadAll) either yields the
bytes or fails; Close is a no-op in the model. -/
abbrev BodyStream := Except String String

/-- Model of *http.Response restricted to what the source reads. -/
structure HttpResponse where
  statusCode : Nat
  body : BodyStream

/-- The black-box network behaviour of a transport: it reads the request
(including its header map, through the store) and produces a response or a
transport error. -/
abbrev Transport := Store → HttpRequest → Except String HttpResponse

/-- Model of *http.Client: the transport behaviour plus the Timeout field
(time.Duration as nanoseconds). CheckRedirect and Jar are absorbed into
the transport behaviour. -/
structure HTTPClient where
  transport : Transport
  timeout : Int

/-- Model of RequestMiddleware: a Go middleware receives the (possibly
nil) context and the transport request by pointer; the request's header
map aliases the builder's bag (Prepare assigns it by reference), so a
middleware can write through the heap. It therefore maps the heap and the
current request to an updated heap together with a possibly new request or
an error. -/
abbrev RequestMiddleware :=
  Option GoCtx → Store → HttpRequest → Store × Except String HttpRequest

/-- The middleware loop of StreamRequester.Prepare: run each middleware in
order starting at index i, threading the heap; the first error is wrapped
with its index and aborts the loop (heap writes already made persist). -/
def runMiddlewares (octx : Option GoCtx) :
    List RequestMiddleware → Nat → Store → HttpRequest →
      Store × Except String HttpRequest
  | [], _, s, q => (s, Except.ok q)
  | m :: ms, i, s, q =>
    match m octx s q with
    | (s1, Except.error e) =>
        (s1, Except.error ("failed to run middleware [" ++ toString i ++ "]; " ++ e))
    | (s1, Except.ok q2) => runMiddlewares octx ms (i + 1) s1 q2

/-- Token-character check of net/http's validMethod. -/
def validMethod (m : String) : Bool :=
  m.length > 0 && m.toList.all validHeaderFieldByte

/-- Model of stdlib http.NewRequestWithContext: rejects a nil context and an
invalid method (empty method defaults to GET); URL parsing is treated as
total. The fresh empty header map the stdlib attaches is immediately
replaced by the caller in Prepare, so the model leaves headerRef at 0 to be
overwritten. -/
def newRequestWithContext (octx : Option GoCtx) (method url body : String) :
    Except String HttpRequest :=
  match octx with
  | none => Except.error "net/http: nil Context"
  | some ctx =>
    let m := if method == "" then "GET" else method
    if validMethod m then Except.ok ⟨ctx, m, url, 0, body⟩
    else Except.error ("net/http: invalid method " ++ m)

/-! ### Connection options (conn.go) -/

/-- ConnOptions restricted to the scalar fields; the dialer hook and TLS
configuration act only inside the black-box transport. Durations are
nanoseconds, counts plain integers. -/
structure ConnOptions where
  maxIdleConns : Int
  maxIdleConnsPerHost : Int
  maxConnsPerHost : Int
  tcpKeepAlive : Int
  keepAlive : Int
  connTimeout : Int
  requestTimeout : Int

def nsSecond : Int := 1000000000

/-- DefaultConnOptions from conn.go. -/
def DefaultConnOptions : ConnOptions :=
  { maxIdleConns := 5
    maxIdleConnsPerHost := 5
    maxConnsPerHost := 100
    tcpKeepAlive := 30 * nsSecond
    keepAlive := 30 * nsSecond
    connTimeout := 10 * nsSecond
    requestTimeout := 0 }

def ConnOptions.WithTimeout (options : ConnOptions) (value : Int) : ConnOptions :=
  { options with connTimeout := value }

def ConnOptions.WithRequestTimeout (options : ConnOptions) (value : Int) : ConnOptions :=
  { options with requestTimeout := value }

/-- The pointer-receiver sanitize of ConnOptions, as a pure function. -/
def ConnOptions.sanitize (options : ConnOptions) : ConnOptions :=
  let options := if options.keepAlive == 0 then
    { options with keepAlive := 30 * nsSecond, tcpKeepAlive := 30 * nsSecond }
    else options
  let options := if options.maxIdleConns == 0 then
    { options with maxIdleConns := 5, maxIdleConnsPerHost := 5 }
    else options
  if options.connTimeout == 0 then { options with connTimeout := 3 * nsSecond }
  else options

/-- NewConn: builds an http.Client over the ambient network (passed as the
explicit `netw` snapshot); only the Timeout field is observable outside the
black box. -/
def NewConn (netw : Transport) (opts : ConnOptions) : HTTPClient :=
  let opts := opts.sanitize
  { transport := netw, timeout := opts.requestTimeout }

/-! ### User agent derivation (URL utility file) -/

/-- os/user.User restricted to the fields the source reads. -/
structure OSUser where
  name : String
  username : String
  homeDir : String

/-- Snapshot of the ambient environment read by userAgent: the three
environment variables (empty string when unset, as os.Getenv reports) and
the result of user.Current(). -/
structure Env where
  userAgentVar : String
  systemVar : String
  componentVar : String
  currentUser : Except String OSUser

def httpAgentPrefix : String := "go-webservice/v0"

/-- Translation of userAgent: USER_AGENT, then SYSTEM/COMPONENT, then the
OS user's name, username or home directory, else "UNKNOWN". -/
def userAgent (env : Env) : String :=
  if env.userAgentVar ≠ "" then httpAgentPrefix ++ "/" ++ env.userAgentVar
  else if env.systemVar ≠ "" then
    if env.componentVar ≠ "" then
      httpAgentPrefix ++ "/" ++ env.systemVar ++ "/" ++ env.componentVar
    else httpAgentPrefix ++ "/" ++ env.systemVar
  else
    match env.currentUser with
    | Except.error _ => "UNKNOWN"
    | Except.ok usr =>
      if usr.name ≠ "" then httpAgentPrefix ++ "/" ++ usr.name
      else if usr.username ≠ "" then httpAgentPrefix ++ "/" ++ usr.username
      else if usr.homeDir ≠ "" then httpAgentPrefix ++ "/" ++ usr.homeDir
      else "UNKNOWN"

/-! ### Client (client file) -/

/-- The Client record: base host, underlying http.Client (None for the
zero value), default timeout, default header map reference, middlewares. -/
structure Client where
  host : String
  conn : Option HTTPClient
  defaultTimeout : Int
  dheadersRef : Ref
  middlewares : List RequestMiddleware

/-- ClientOptions; Headers is a possibly-nil map reference. -/
structure ClientOptions where
  conn : Option HTTPClient
  maxRequestTimeout : Int
  headers : Option Ref
  middlewares : List RequestMiddleware

/-- ClientOptions.sanitize: default the timeout to 5s, build a connection
over the ambient network if none was supplied, and allocate an empty
header map if Headers is nil. -/
def ClientOptions.sanitize (s : Store) (netw : Transport) (options : ClientOptions) :
    Store × ClientOptions :=
  let options := if options.maxRequestTimeout == 0 then
    { options with maxRequestTimeout := 5 * nsSecond } else options
  let options :=
    match options.conn with
    | none =>
      { options with conn := some (NewConn netw
          ((DefaultConnOptions.WithRequestTimeout options.maxRequestTimeout).WithTimeout
            options.maxRequestTimeout)) }
    | some _ => options
  match options.headers with
  | none =>
    let (s2, r) := s.alloc ⟨[]⟩
    (s2, { options with headers := some r })
  | some _ => (s, options)

/-- NewCustomClient: sanitize the options, adopt the options' header map by
reference as the default headers, append the derived User-Agent to it, and
re-wrap the connection when its Timeout differs from the default timeout. -/
def NewCustomClient (s : Store) (env : Env) (netw : Transport) (host : String)
    (options : ClientOptions) : Store × Client :=
  let (s1, options) := ClientOptions.sanitize s netw options
  let client : Client :=
    { host := host
      conn := options.conn
      defaultTimeout := options.maxRequestTimeout
      dheadersRef := options.headers.getD 0
      middlewares := options.middlewares }
  let s2 := s1.set client.dheadersRef
    ((s1.get client.dheadersRef).add "User-Agent" (userAgent env))
  let client :=
    match client.conn with
    | some c =>
      if client.defaultTimeout > 0 && c.timeout != client.defaultTimeout then
        { client with conn := some { transport := c.transport, timeout := client.defaultTimeout } }
      else client
    | none => client
  (s2, client)

/-- NewClient: NewCustomClient with zero options. -/
def NewClient (s : Store) (env : Env) (netw : Transport) (host : String) :
    Store × Client :=
  NewCustomClient s env netw host
    { conn := none, maxRequestTimeout := 0, headers := none, middlewares := [] }

def Client.FullURL (cli : Client) (endpoint : String) : String :=
  combineURL cli.host endpoint

/-! ### Stream request builder (request.go) -/

/-- StreamRequester: the client (by value), the header map reference and
the timeout (nanoseconds, 0 when unset). -/
structure StreamRequester where
  cli : Client
  headersRef : Ref
  timeout : Int

/-- A RequestOption mutates a builder under construction through its
pointer: it may rewrite builder fields and write through the header map
reference, hence it transforms the store-builder pair. -/
abbrev RequestOption := Store × StreamRequester → Store × StreamRequester

/-- validate: a builder not produced from a Client has a nil connection. -/
def StreamRequester.validate (req : StreamRequester) : Option String :=
  if req.cli.conn.isNone then some "request must be created from a Client" else none

/-- Clone: copy the builder, deep-cloning the header map into a fresh cell
(http.Header.Clone). -/
def StreamRequester.Clone (s : Store) (req : StreamRequester) :
    Store × StreamRequester :=
  let (s1, r) := s.alloc (s.get req.headersRef)
  (s1, { req with headersRef := r })

/-- WithHeader: clone, then Add the value under the key. -/
def StreamRequester.WithHeader (s : Store) (req : StreamRequester) (key value : String) :
    Store × StreamRequester :=
  let (s1, req1) := StreamRequester.Clone s req
  let s2 := s1.set req1.headersRef ((s1.get req1.headersRef).add key value)
  (s2, req1)

/-- WithUniqueHeader: clone, then Set the value under the key. -/
def StreamRequester.WithUniqueHeader (s : Store) (req : StreamRequester) (key value : String) :
    Store × StreamRequester :=
  let (s1, req1) := StreamRequester.Clone s req
  let s2 := s1.set req1.headersRef ((s1.get req1.headersRef).set key value)
  (s2, req1)

/-- The range-loop body of WithHeaders and RequestHeaders: Set every pair
of the map (modelled as an association list) on the cell at ref. -/
def setAllHeaders (ref : Ref) (m : List (String × String)) (s : Store) : Store :=
  m.foldl (fun acc kv => acc.set ref ((acc.get ref).set kv.1 kv.2)) s

/-- WithHeaders: clone, then Set every pair of the supplied map. -/
def StreamRequester.WithHeaders (s : Store) (req : StreamRequester)
    (headers : List (String × String)) : Store × StreamRequester :=
  let (s1, req1) := StreamRequester.Clone s req
  (setAllHeaders req1.headersRef headers s1, req1)

/-- WithTimeout: set the timeout on the value copy (no header clone). -/
def StreamRequester.WithTimeout (req : StreamRequester) (timeout : Int) : StreamRequester :=
  { req with timeout := timeout }

/-- Prepare: validate, build the transport request on the joined URL,
assign the builder's header map (by reference) to it, then run the
middlewares in order. Prepare itself writes nothing to the heap, but the
middlewares may write through the aliased header map, so the possibly
updated heap is returned with the result. -/
def StreamRequester.Prepare (s : Store) (req : StreamRequester) (octx : Option GoCtx)
    (method endpoint body : String) : Store × Except String HttpRequest :=
  match req.validate with
  | some e => (s, Except.error e)
  | none =>
    match newRequestWithContext octx method (req.cli.FullURL endpoint) body with
    | Except.error e => (s, Except.error ("error creating request; " ++ e))
    | Except.ok hreq0 =>
      let hreq := { hreq0 with headerRef := req.headersRef }
      runMiddlewares octx req.cli.middlewares 0 s hreq

/-- Do: Prepare, send over the connection (which reads the heap exactly as
the middlewares left it), hand back status and the body stream. The
nil-conn branch mirrors the nil-pointer fault that would occur if Do were
reached with no connection (validate precludes it). -/
def StreamRequester.Do (s : Store) (req : StreamRequester) (octx : Option GoCtx)
    (method endpoint body : String) : Store × Except String (Nat × BodyStream) :=
  match StreamRequester.Prepare s req octx method endpoint body with
  | (s1, Except.error e) => (s1, Except.error ("error creating request; " ++ e))
  | (s1, Except.ok hreq) =>
    match req.cli.conn with
    | none =>
      (s1, Except.error "runtime error: invalid memory address or nil pointer dereference")
    | some c =>
      match c.transport s1 hreq with
      | Except.error e => (s1, Except.error ("error running request; " ++ e))
      | Except.ok res => (s1, Except.ok (res.statusCode, res.body))

/-- Context: substitute Background for a nil parent; wrap with a deadline
of now plus the timeout when the timeout is positive (context.WithTimeout,
whose cancel function is modelled as `some Unit.unit`); otherwise return
the parent and a nil cancel (`none`). -/
def StreamRequester.Context (req : StreamRequester) (octx : Option GoCtx) (now : Int) :
    GoCtx × Option Unit :=
  let ctx := octx.getD GoCtx.background
  if req.timeout > 0 then (GoCtx.withDeadline ctx (now + req.timeout), some Unit.unit)
  else (ctx, none)

/-! ### Buffered requester (request.go) -/

/-- Requester wraps a StreamRequester by value. -/
structure Requester where
  core : StreamRequester

def Requester.WithTimeout (req : Requester) (timeout : Int) : Requester :=
  { req with core := req.core.WithTimeout timeout }

def Requester.WithHeader (s : Store) (req : Requester) (key value : String) :
    Store × Requester :=
  let (s1, core1) := StreamRequester.WithHeader s req.core key value
  (s1, { req with core := core1 })

def Requester.WithUniqueHeader (s : Store) (req : Requester) (key value : String) :
    Store × Requester :=
  let (s1, core1) := StreamRequester.WithUniqueHeader s req.core key value
  (s1, { req with core := core1 })

def Requester.WithHeaders (s : Store) (req : Requester)
    (headers : List (String × String)) : Store × Requester :=
  let (s1, core1) := StreamRequester.WithHeaders s req.core headers
  (s1, { req with core := core1 })

/-- Requester.Prepare: delegate with a buffer view of the byte slice. -/
def Requester.Prepare (s : Store) (req : Requester) (octx : Option GoCtx)
    (method endpoint body : String) : Store × Except String HttpRequest :=
  StreamRequester.Prepare s req.core octx method endpoint body

/-- The (status, response, err) triple Go's buffered Do returns. -/
structure DoResult where
  status : Nat
  response : Option String
  err : Option String
deriving DecidableEq, Repr

/-- Requester.Do: derive the timeout context, run the stream Do (threading
the heap), then drain the body (io.ReadAll); a failed drain returns the
status together with the wrapped read error; a failed stream Do returns a
zero status and no body. -/
def Requester.Do (s : Store) (req : Requester) (now : Int) (octx : Option GoCtx)
    (method endpoint data : String) : Store × DoResult :=
  let ctxPair := req.core.Context octx now
  match StreamRequester.Do s req.core (some ctxPair.1) method endpoint data with
  | (s1, Except.error e) => (s1, ⟨0, none, some e⟩)
  | (s1, Except.ok (status, payload)) =>
    match payload with
    | Except.error e => (s1, ⟨status, none, some ("error reading http body; " ++ e)⟩)
    | Except.ok bytes => (s1, ⟨status, some bytes, none⟩)

/-! ### JSON requester (request.go) -/

/-- An interface value handed to json.Marshal: the serialisable shapes the
claims need, plus a marker for values json cannot encode (channels, funcs).
-/
inductive GoValue where
  | null : GoValue
  | boolean : Bool → GoValue
  | num : Int → GoValue
  | str : String → GoValue
  | unsupported : String → GoValue
deriving DecidableEq, Repr

/-- Model of json.Marshal on GoValue. -/
def jsonMarshal : GoValue → Except String String
  | GoValue.null => Except.ok "null"
  | GoValue.boolean true => Except.ok "true"
  | GoValue.boolean false => Except.ok "false"
  | GoValue.num n => Except.ok (toString n)
  | GoValue.str s => Except.ok ("\"" ++ s ++ "\"")
  | GoValue.unsupported d => Except.error ("json: unsupported type: " ++ d)

/-- JSONRequester wraps a Requester by value. -/
structure JSONRequester where
  core : Requester

/-- JSONRequester.Prepare: marshal, then delegate; a marshal failure is
wrapped and returned before anything else happens. -/
def JSONRequester.Prepare (s : Store) (req : JSONRequester) (octx : Option GoCtx)
    (method endpoint : String) (data : GoValue) : Store × Except String HttpRequest :=
  match jsonMarshal data with
  | Except.error e => (s, Except.error ("invalid request body; " ++ e))
  | Except.ok ebody => Requester.Prepare s req.core octx method endpoint ebody

/-- JSONRequester.Do: marshal, then delegate; a marshal failure yields the
zero status, no body and the wrapped error before any network activity. -/
def JSONRequester.Do (s : Store) (req : JSONRequester) (now : Int) (octx : Option GoCtx)
    (method endpoint : String) (data : GoValue) : Store × DoResult :=
  match jsonMarshal data with
  | Except.error e => (s, ⟨0, none, some ("invalid request body; " ++ e)⟩)
  | Except.ok ebody => Requester.Do s req.core now octx method endpoint ebody

def JSONRequester.WithTimeout (req : JSONRequester) (timeout : Int) : JSONRequester :=
  { req with core := req.core.WithTimeout timeout }

def JSONRequester.WithHeader (s : Store) (req : JSONRequester) (key value : String) :
    Store × JSONRequester :=
  let (s1, core1) := Requester.WithHeader s req.core key value
  (s1, { req with core := core1 })

def JSONRequester.WithUniqueHeader (s : Store) (req : JSONRequester) (key value : String) :
    Store × JSONRequester :=
  let (s1, core1) := Requester.WithUniqueHeader s req.core key value
  (s1, { req with core := core1 })

def JSONRequester.WithHeaders (s : Store) (req : JSONRequester)
    (headers : List (String × String)) : Store × JSONRequester :=
  let (s1, core1) := Requester.WithHeaders s req.core headers
  (s1, { req with core := core1 })

/-! ### Client request factories and options (client file) -/

def Client.RequestTimeout (_cli : Client) (timeout : Int) : RequestOption :=
  fun sr => (sr.1, { sr.2 with timeout := timeout })

def Client.RequestHeaders (_cli : Client) (headers : List (String × String)) : RequestOption :=
  fun sr => (setAllHeaders sr.2.headersRef headers sr.1, sr.2)

def Client.RequestHeader (_cli : Client) (k v : String) : RequestOption :=
  fun sr => (sr.1.set sr.2.headersRef ((sr.1.get sr.2.headersRef).add k v), sr.2)

def Client.RequestUniqueHeader (_cli : Client) (k v : String) : RequestOption :=
  fun sr => (sr.1.set sr.2.headersRef ((sr.1.get sr.2.headersRef).set k v), sr.2)

def Client.WithDefaultHeader (_cli : Client) (k v : String) : RequestOption :=
  fun sr =>
    if (sr.1.get sr.2.headersRef).get k ≠ "" then sr
    else (sr.1.set sr.2.headersRef ((sr.1.get sr.2.headersRef).set k v), sr.2)

/-- The option-application loop of NewStreamRequest. -/
def applyOptions (opts : List RequestOption) (p : Store × StreamRequester) :
    Store × StreamRequester :=
  opts.foldl (fun acc opt => opt acc) p

/-- NewStreamRequest: seed a fresh builder with a clone of the client's
default headers, then apply the options. -/
def Client.NewStreamRequest (s : Store) (cli : Client) (opts : List RequestOption) :
    Store × StreamRequester :=
  let (s1, r) := s.alloc (s.get cli.dheadersRef)
  applyOptions opts (s1, { cli := cli, headersRef := r, timeout := 0 })

def Client.NewRequest (s : Store) (cli : Client) (opts : List RequestOption) :
    Store × Requester :=
  let (s1, core) := Client.NewStreamRequest s cli opts
  (s1, ⟨core⟩)

/-- NewJSONRequest: build a Requester, wrap it, then Set the Content-Type
header to application/json on the fresh header map. -/
def Client.NewJSONRequest (s : Store) (cli : Client) (opts : List RequestOption) :
    Store × JSONRequester :=
  let (s1, core) := Client.NewRequest s cli opts
  let req : JSONRequester := ⟨core⟩
  let r := req.core.core.headersRef
  (s1.set r ((s1.get r).set "Content-Type" "application/json"), req)

/-! ### Operation inductives used to quantify over the source's mutators -/

/-- The three header mutators of the stream builder. -/
inductive HeaderOp where
  | withHeader : String → String → HeaderOp
  | withUniqueHeader : String → String → HeaderOp
  | withHeaders : List (String × String) → HeaderOp

def HeaderOp.apply (op : HeaderOp) (s : Store) (req : StreamRequester) :
    Store × StreamRequester :=
  match op with
  | HeaderOp.withHeader k v => StreamRequester.WithHeader s req k v
  | HeaderOp.withUniqueHeader k v => StreamRequester.WithUniqueHeader s req k v
  | HeaderOp.withHeaders m => StreamRequester.WithHeaders s req m

/-- The request options the client exposes, as data (the source builds them
as closures on the client). -/
inductive ClientOption where
  | requestTimeout : Int → ClientOption
  | requestHeaders : List (String × String) → ClientOption
  | requestHeader : String → String → ClientOption
  | requestUniqueHeader : String → String → ClientOption
  | withDefaultHeader : String → String → ClientOption

def ClientOption.interp (cli : Client) : ClientOption → RequestOption
  | ClientOption.requestTimeout t => Client.RequestTimeout cli t
  | ClientOption.requestHeaders m => Client.RequestHeaders cli m
  | ClientOption.requestHeader k v => Client.RequestHeader cli k v
  | ClientOption.requestUniqueHeader k v => Client.RequestUniqueHeader cli k v
  | ClientOption.withDefaultHeader k v => Client.WithDefaultHeader cli k v

/-- The mutators available on a JSON builder. -/
inductive JSONOp where
  | withHeader : String → String → JSONOp
  | withUniqueHeader : String → String → JSONOp
  | withHeaders : List (String × String) → JSONOp
  | withTimeout : Int → JSONOp

def JSONOp.apply (op : JSONOp) (s : Store) (req : JSONRequester) :
    Store × JSONRequester :=
  match op with
  | JSONOp.withHeader k v => JSONRequester.WithHeader s req k v
  | JSONOp.withUniqueHeader k v => JSONRequester.WithUniqueHeader s req k v
  | JSONOp.withHeaders m => JSONRequester.WithHeaders s req m
  | JSONOp.withTimeout t => (s, JSONRequester.WithTimeout req t)

/-- Apply a sequence of JSON-builder mutators in order. -/
def applyJSONOps (ops : List JSONOp) (p : Store × JSONRequester) :
    Store × JSONRequester :=
  ops.foldl (fun acc op => op.apply acc.1 acc.2) p

/-- A JSON-builder mutator whose keys never canonicalise to Content-Type. -/
def JSONOp.avoidsContentType : JSONOp → Prop
  | JSONOp.withHeader k _ => CanonicalMIMEHeaderKey k ≠ "Content-Type"
  | JSONOp.withUniqueHeader k _ => CanonicalMIMEHeaderKey k ≠ "Content-Type"
  | JSONOp.withHeaders m => ∀ kv ∈ m, CanonicalMIMEHeaderKey kv.1 ≠ "Content-Type"
  | JSONOp.withTimeout _ => True

/-! ### List-level lemmas for the store -/

theorem getD_append_lt {α : Type} (l1 l2 : List α) (n : Nat) (d : α)
    (h : n < l1.length) : (l1 ++ l2).getD n d = l1.getD n d := by
  induction l1 generalizing n with
  | nil => simp at h
  | cons a l ih =>
    cases n with
    | zero => rfl
    | succ n =>
      simp only [List.cons_append, List.getD_cons_succ]
      exact ih n (by simpa using Nat.lt_of_succ_lt_succ h)

theorem getD_append_self {α : Type} (l1 : List α) (a d : α) :
    (l1 ++ [a]).getD l1.length d = a := by
  induction l1 with
  | nil => rfl
  | cons b l ih => simp only [List.cons_append, List.length_cons, List.getD_cons_succ]; exact ih

theorem getD_set_ne {α : Type} (l : List α) (m n : Nat) (a d : α)
    (h : n ≠ m) : (l.set m a).getD n d = l.getD n d := by
  induction l generalizing m n with
  | nil => rfl
  | cons b l ih =>
    cases m with
    | zero =>
      cases n with
      | zero => exact absurd rfl h
      | succ n => rfl
    | succ m =>
      cases n with
      | zero => rfl
      | succ n =>
        simp only [List.set_cons_succ, List.getD_cons_succ]
        exact ih m n (fun he => h (by rw [he]))

theorem getD_set_self {α : Type} (l : List α) (m : Nat) (a d : α)
    (h : m < l.length) : (l.set m a).getD m d = a := by
  induction l generalizing m with
  | nil => simp at h
  | cons b l ih =>
    cases m with
    | zero => rfl
    | succ m =>
      simp only [List.set_cons_succ, List.getD_cons_succ]
      exact ih m (by simpa using Nat.lt_of_succ_lt_succ h)

/-! ### Store-level frame lemmas -/

theorem Store.get_alloc_lt (s : Store) (h : Header) (r : Ref) (hr : r < s.size) :
    (s.alloc h).1.get r = s.get r := by
  simpa [Store.alloc, Store.get] using getD_append_lt s.cells [h] r ⟨[]⟩ hr

theorem Store.get_alloc_self (s : Store) (h : Header) :
    (s.alloc h).1.get (s.alloc h).2 = h := by
  simp only [Store.alloc, Store.get]
  exact getD_append_self s.cells h ⟨[]⟩

theorem Store.get_set_ne (s : Store) (r' : Ref) (h : Header) (r : Ref) (hne : r ≠ r') :
    (s.set r' h).get r = s.get r :=
  getD_set_ne s.cells r' r h ⟨[]⟩ hne

theorem Store.get_set_self (s : Store) (r : Ref) (h : Header) (hr : r < s.size) :
    (s.set r h).get r = h :=
  getD_set_self s.cells r h ⟨[]⟩ hr

theorem Store.size_alloc (s : Store) (h : Header) :
    (s.alloc h).1.size = s.size + 1 := by
  simp [Store.alloc, Store.size]

theorem Store.alloc_ref (s : Store) (h : Header) : (s.alloc h).2 = s.size := rfl

theorem Store.size_set (s : Store) (r : Ref) (h : Header) :
    (s.set r h).size = s.size := by
  simp [Store.set, Store.size]

theorem setAllHeaders_get_ne (m : List (String × String)) (ref r : Ref)
    (hne : r ≠ ref) : ∀ s : Store, (setAllHeaders ref m s).get r = s.get r := by
  induction m with
  | nil => intro s; rfl
  | cons kv rest ih =>
    intro s
    simp only [setAllHeaders, List.foldl_cons] at *
    rw [ih]
    exact Store.get_set_ne s ref _ r hne

theorem setAllHeaders_size (m : List (String × String)) (ref : Ref) :
    ∀ s : Store, (setAllHeaders ref m s).size = s.size := by
  induction m with
  | nil => intro s; rfl
  | cons kv rest ih =>
    intro s
    simp only [setAllHeaders, List.foldl_cons] at *
    rw [ih, Store.size_set]

/-! ### Value-list lemmas for the header bag -/

theorem lookupVals_addVal_self (x v : String) (l : List (String × List String)) :
    lookupVals x (addVal x v l) = lookupVals x l ++ [v] := by
  induction l with
  | nil => simp [addVal, lookupVals]
  | cons p rest ih =>
    obtain ⟨k0, vs⟩ := p
    by_cases h : k0 = x
    · subst h; simp [addVal, lookupVals]
    · have hb : (k0 == x) = false := by simp [h]
      simp [addVal, lookupVals, hb, ih]

theorem lookupVals_addVal_ne (x y v : String) (l : List (String × List String))
    (hne : x ≠ y) : lookupVals y (addVal x v l) = lookupVals y l := by
  induction l with
  | nil =>
    have hb : (x == y) = false := by simp [hne]
    simp [addVal, lookupVals, hb]
  | cons p rest ih =>
    obtain ⟨k0, vs⟩ := p
    by_cases h : k0 = x
    · subst h
      have hb : (k0 == y) = false := by simp [hne]
      simp [addVal, lookupVals, hb]
    · have hb : (k0 == x) = false := by simp [h]
      simp [addVal, lookupVals, hb, ih]

theorem lookupVals_setVal_self (x v : String) (l : List (String × List String)) :
    lookupVals x (setVal x v l) = [v] := by
  induction l with
  | nil => simp [setVal, lookupVals]
  | cons p rest ih =>
    obtain ⟨k0, vs⟩ := p
    by_cases h : k0 = x
    · subst h; simp [setVal, lookupVals]
    · have hb : (k0 == x) = false := by simp [h]
      simp [setVal, lookupVals, hb, ih]

theorem lookupVals_setVal_ne (x y v : String) (l : List (String × List String))
    (hne : x ≠ y) : lookupVals y (setVal x v l) = lookupVals y l := by
  induction l with
  | nil =>
    have hb : (x == y) = false := by simp [hne]
    simp [setVal, lookupVals, hb]
  | cons p rest ih =>
    obtain ⟨k0, vs⟩ := p
    by_cases h : k0 = x
    · subst h
      have hb : (k0 == y) = false := by simp [hne]
      simp [setVal, lookupVals, hb]
    · have hb : (k0 == x) = false := by simp [h]
      simp [setVal, lookupVals, hb, ih]

theorem Header.values_add_self (h : Header) (k v : String) :
    (h.add k v).values k = h.values k ++ [v] :=
  lookupVals_addVal_self (CanonicalMIMEHeaderKey k) v h.entries

theorem Header.values_set_self (h : Header) (k v : String) :
    (h.set k v).values k = [v] :=
  lookupVals_setVal_self (CanonicalMIMEHeaderKey k) v h.entries

theorem Header.values_add_ne (h : Header) (k q v : String)
    (hne : CanonicalMIMEHeaderKey k ≠ CanonicalMIMEHeaderKey q) :
    (h.add k v).values q = h.values q :=
  lookupVals_addVal_ne (CanonicalMIMEHeaderKey k) (CanonicalMIMEHeaderKey q) v h.entries hne

theorem Header.values_set_ne (h : Header) (k q v : String)
    (hne : CanonicalMIMEHeaderKey k ≠ CanonicalMIMEHeaderKey q) :
    (h.set k v).values q = h.values q :=
  lookupVals_setVal_ne (CanonicalMIMEHeaderKey k) (CanonicalMIMEHeaderKey q) v h.entries hne

/-! ### Builder-level cell lemmas -/

theorem Store.get_alloc_size (s : Store) (h : Header) :
    (s.alloc h).1.get s.size = h := by
  simp only [Store.alloc, Store.get, Store.size]
  exact getD_append_self s.cells h ⟨[]⟩

theorem withHeader_cell (s : Store) (B : StreamRequester) (k v : String) :
    (StreamRequester.WithHeader s B k v).1.get
      (StreamRequester.WithHeader s B k v).2.headersRef
      = (s.get B.headersRef).add k v := by
  have hlt : s.size < ((s.alloc (s.get B.headersRef)).1).size := by
    rw [Store.size_alloc]; omega
  calc (StreamRequester.WithHeader s B k v).1.get
        (StreamRequester.WithHeader s B k v).2.headersRef
      = ((s.alloc (s.get B.headersRef)).1.set s.size
          (((s.alloc (s.get B.headersRef)).1.get s.size).add k v)).get s.size := rfl
    _ = ((s.alloc (s.get B.headersRef)).1.get s.size).add k v :=
        Store.get_set_self _ _ _ hlt
    _ = (s.get B.headersRef).add k v := by rw [Store.get_alloc_size]

theorem withUniqueHeader_cell (s : Store) (B : StreamRequester) (k v : String) :
    (StreamRequester.WithUniqueHeader s B k v).1.get
      (StreamRequester.WithUniqueHeader s B k v).2.headersRef
      = (s.get B.headersRef).set k v := by
  have hlt : s.size < ((s.alloc (s.get B.headersRef)).1).size := by
    rw [Store.size_alloc]; omega
  calc (StreamRequester.WithUniqueHeader s B k v).1.get
        (StreamRequester.WithUniqueHeader s B k v).2.headersRef
      = ((s.alloc (s.get B.headersRef)).1.set s.size
          (((s.alloc (s.get B.headersRef)).1.get s.size).set k v)).get s.size := rfl
    _ = ((s.alloc (s.get B.headersRef)).1.get s.size).set k v :=
        Store.get_set_self _ _ _ hlt
    _ = (s.get B.headersRef).set k v := by rw [Store.get_alloc_size]

theorem setAllHeaders_get_self (m : List (String × String)) (ref : Ref) :
    ∀ s : Store, ref < s.size →
      (setAllHeaders ref m s).get ref
        = m.foldl (fun h kv => h.set kv.1 kv.2) (s.get ref) := by
  induction m with
  | nil => intro s _; rfl
  | cons kv rest ih =>
    intro s hlt
    have hsz : ref < (s.set ref ((s.get ref).set kv.1 kv.2)).size := by
      rw [Store.size_set]; exact hlt
    calc (setAllHeaders ref (kv :: rest) s).get ref
        = (setAllHeaders ref rest (s.set ref ((s.get ref).set kv.1 kv.2))).get ref := rfl
      _ = rest.foldl (fun h kv => h.set kv.1 kv.2)
            ((s.set ref ((s.get ref).set kv.1 kv.2)).get ref) := ih _ hsz
      _ = rest.foldl (fun h kv => h.set kv.1 kv.2) ((s.get ref).set kv.1 kv.2) := by
            rw [Store.get_set_self _ _ _ hlt]

theorem withHeaders_cell (s : Store) (B : StreamRequester) (m : List (String × String)) :
    (StreamRequester.WithHeaders s B m).1.get
      (StreamRequester.WithHeaders s B m).2.headersRef
      = m.foldl (fun h kv => h.set kv.1 kv.2) (s.get B.headersRef) := by
  have hlt : s.size < ((s.alloc (s.get B.headersRef)).1).size := by
    rw [Store.size_alloc]; omega
  calc (StreamRequester.WithHeaders s B m).1.get
        (StreamRequester.WithHeaders s B m).2.headersRef
      = (setAllHeaders s.size m (s.alloc (s.get B.headersRef)).1).get s.size := rfl
    _ = m.foldl (fun h kv => h.set kv.1 kv.2)
          ((s.alloc (s.get B.headersRef)).1.get s.size) :=
        setAllHeaders_get_self m s.size _ hlt
    _ = m.foldl (fun h kv => h.set kv.1 kv.2) (s.get B.headersRef) := by
        rw [Store.get_alloc_size]

/-! ### Frame lemmas for the header mutators -/

theorem HeaderOp.apply_ref (op : HeaderOp) (s : Store) (B : StreamRequester) :
    ((op.apply s B).2).headersRef = s.size := by
  cases op <;> rfl

theorem HeaderOp.apply_size (op : HeaderOp) (s : Store) (B : StreamRequester) :
    ((op.apply s B).1).size = s.size + 1 := by
  cases op with
  | withHeader k v =>
    show (Store.set _ _ _).size = s.size + 1
    rw [Store.size_set]; simp [Store.size]
  | withUniqueHeader k v =>
    show (Store.set _ _ _).size = s.size + 1
    rw [Store.size_set]; simp [Store.size]
  | withHeaders m =>
    show (setAllHeaders _ m _).size = s.size + 1
    rw [setAllHeaders_size]; simp [Store.size]

theorem HeaderOp.apply_get_lt (op : HeaderOp) (s : Store) (B : StreamRequester)
    (r : Ref) (hr : r < s.size) : ((op.apply s B).1).get r = s.get r := by
  cases op with
  | withHeader k v =>
    show (Store.set _ s.size _).get r = s.get r
    rw [Store.get_set_ne _ _ _ _ (Nat.ne_of_lt hr)]
    exact Store.get_alloc_lt s _ r hr
  | withUniqueHeader k v =>
    show (Store.set _ s.size _).get r = s.get r
    rw [Store.get_set_ne _ _ _ _ (Nat.ne_of_lt hr)]
    exact Store.get_alloc_lt s _ r hr
  | withHeaders m =>
    show (setAllHeaders s.size m _).get r = s.get r
    rw [setAllHeaders_get_ne m s.size r (Nat.ne_of_lt hr)]
    exact Store.get_alloc_lt s _ r hr

/-! ### Demo objects used by the closed witness statements -/

def demoTransport : Transport := fun _ _ => Except.ok ⟨200, Except.ok "done"⟩

def demoHTTPClient : HTTPClient := ⟨demoTransport, 0⟩

def demoClient : Client := ⟨"https://localhost", some demoHTTPClient, 0, 0, []⟩

def demoStore : Store := ⟨[⟨[]⟩]⟩

def demoStream : StreamRequester := ⟨demoClient, 0, 0⟩

/-! ### Claim C1 -/

/-- The conclusion of claim C1 for a parent builder B in store s: deriving
B1 by op1 and then B2 by op2 from the same parent leaves B's own bag
unchanged at every step, B1's bag is not changed by B2's derivation, and a
further mutation op3 of B1 is not observed by B2. -/
def cloneIndependent (s : Store) (B : StreamRequester) (op1 op2 op3 : HeaderOp) : Prop :=
  (op1.apply s B).1.get B.headersRef = s.get B.headersRef ∧
  (op2.apply (op1.apply s B).1 B).1.get B.headersRef = s.get B.headersRef ∧
  (op3.apply (op2.apply (op1.apply s B).1 B).1 (op1.apply s B).2).1.get B.headersRef
    = s.get B.headersRef ∧
  (op2.apply (op1.apply s B).1 B).1.get ((op1.apply s B).2).headersRef
    = (op1.apply s B).1.get ((op1.apply s B).2).headersRef ∧
  (op3.apply (op2.apply (op1.apply s B).1 B).1 (op1.apply s B).2).1.get
      ((op2.apply (op1.apply s B).1 B).2).headersRef
    = (op2.apply (op1.apply s B).1 B).1.get ((op2.apply (op1.apply s B).1 B).2).headersRef

/-- C1: every header mutator (WithHeader, WithUniqueHeader, WithHeaders)
returns a new builder while the receiver's own header values are unchanged,
and two builders independently derived from the same parent never observe
each other's later header additions. -/
theorem claim_C1_header_mutator_clone_independence (s : Store) (B : StreamRequester)
    (op1 op2 op3 : HeaderOp) (h : B.headersRef < s.size) :
    cloneIndependent s B op1 op2 op3 := by
  have hs1 : ((op1.apply s B).1).size = s.size + 1 := HeaderOp.apply_size op1 s B
  have hs2 : ((op2.apply (op1.apply s B).1 B).1).size = s.size + 2 := by
    rw [HeaderOp.apply_size, hs1]
  have hB1 : ((op1.apply s B).2).headersRef = s.size := HeaderOp.apply_ref op1 s B
  have hB2 : ((op2.apply (op1.apply s B).1 B).2).headersRef = s.size + 1 := by
    rw [HeaderOp.apply_ref, hs1]
  have c1 : (op1.apply s B).1.get B.headersRef = s.get B.headersRef :=
    HeaderOp.apply_get_lt op1 s B _ h
  have hlt1 : B.headersRef < ((op1.apply s B).1).size := by
    rw [hs1]; exact Nat.lt_succ_of_lt h
  have hlt2 : B.headersRef < ((op2.apply (op1.apply s B).1 B).1).size := by
    rw [hs2]; exact Nat.lt_succ_of_lt (Nat.lt_succ_of_lt h)
  have hlt3 : ((op1.apply s B).2).headersRef < ((op1.apply s B).1).size := by
    rw [hB1, hs1]; exact Nat.lt_succ_self _
  have hlt4 : ((op2.apply (op1.apply s B).1 B).2).headersRef
      < ((op2.apply (op1.apply s B).1 B).1).size := by
    rw [hB2, hs2]; exact Nat.lt_succ_self _
  have c2 : (op2.apply (op1.apply s B).1 B).1.get B.headersRef = s.get B.headersRef := by
    rw [HeaderOp.apply_get_lt op2 _ B _ hlt1]
    exact c1
  have c3 : (op3.apply (op2.apply (op1.apply s B).1 B).1 (op1.apply s B).2).1.get
      B.headersRef = s.get B.headersRef := by
    rw [HeaderOp.apply_get_lt op3 _ _ _ hlt2]
    exact c2
  have c4 : (op2.apply (op1.apply s B).1 B).1.get ((op1.apply s B).2).headersRef
      = (op1.apply s B).1.get ((op1.apply s B).2).headersRef :=
    HeaderOp.apply_get_lt op2 _ B _ hlt3
  have c5 : (op3.apply (op2.apply (op1.apply s B).1 B).1 (op1.apply s B).2).1.get
      ((op2.apply (op1.apply s B).1 B).2).headersRef
      = (op2.apply (op1.apply s B).1 B).1.get ((op2.apply (op1.apply s B).1 B).2).headersRef :=
    HeaderOp.apply_get_lt op3 _ _ _ hlt4
  exact ⟨c1, c2, c3, c4, c5⟩

/-- Witness for C1 at a concrete store, builder and mutator triple. -/
theorem claim_C1_header_mutator_clone_independence_witness :
    demoStream.headersRef < demoStore.size ∧
    cloneIndependent demoStore demoStream (HeaderOp.withHeader "A" "1")
      (HeaderOp.withHeader "A" "2") (HeaderOp.withUniqueHeader "B" "3") :=
  ⟨by decide,
   claim_C1_header_mutator_clone_independence demoStore demoStream
     (HeaderOp.withHeader "A" "1") (HeaderOp.withHeader "A" "2")
     (HeaderOp.withUniqueHeader "B" "3") (by decide)⟩

/-! ### Claim C5 -/

/-- C5: the URL-join rule of combineURL: drop the endpoint's leading slash
when both sides carry one, insert a slash when neither does, concatenate
directly otherwise; and the two quoted concrete evaluations. -/
theorem claim_C5_combineURL_join_rule :
    (∀ b e : String, strEndsWith b "/" = true → strStartsWith e "/" = true →
      combineURL b e = b ++ strDropFirst e) ∧
    (∀ b e : String, strEndsWith b "/" = true → strStartsWith e "/" = false →
      combineURL b e = b ++ e) ∧
    (∀ b e : String, strEndsWith b "/" = false → strStartsWith e "/" = true →
      combineURL b e = b ++ e) ∧
    (∀ b e : String, strEndsWith b "/" = false → strStartsWith e "/" = false →
      combineURL b e = b ++ "/" ++ e) ∧
    combineURL "https://localhost" "" = "https://localhost/" ∧
    combineURL "https://localhost/" "/" = "https://localhost/" := by
  refine ⟨?_, ?_, ?_, ?_, by decide, by decide⟩ <;>
    (intro b e h1 h2; simp [combineURL, h1, h2])

/-- Witness for C5: each case of the join rule applied at concrete URLs. -/
theorem claim_C5_combineURL_join_rule_witness :
    combineURL "a/" "/b" = "a/" ++ strDropFirst "/b" ∧
    combineURL "a/" "b" = "a/" ++ "b" ∧
    combineURL "a" "/b" = "a" ++ "/b" ∧
    combineURL "a" "b" = "a" ++ "/" ++ "b" :=
  ⟨claim_C5_combineURL_join_rule.1 "a/" "/b" (by decide) (by decide),
   claim_C5_combineURL_join_rule.2.1 "a/" "b" (by decide) (by decide),
   claim_C5_combineURL_join_rule.2.2.1 "a" "/b" (by decide) (by decide),
   claim_C5_combineURL_join_rule.2.2.2.1 "a" "b" (by decide) (by decide)⟩

/-! ### Claim C9 -/

/-- C9: WithHeader appends one value to the key's list (cumulative), while
WithUniqueHeader leaves exactly the latest value, whatever was there. -/
theorem claim_C9_add_cumulative_set_replacing (s : Store) (B : StreamRequester)
    (k v : String) :
    ((StreamRequester.WithHeader s B k v).1.get
        (StreamRequester.WithHeader s B k v).2.headersRef).values k
      = (s.get B.headersRef).values k ++ [v] ∧
    ((StreamRequester.WithUniqueHeader s B k v).1.get
        (StreamRequester.WithUniqueHeader s B k v).2.headersRef).values k = [v] ∧
    (((StreamRequester.WithUniqueHeader s B k v).1.get
        (StreamRequester.WithUniqueHeader s B k v).2.headersRef).values k).length = 1 := by
  refine ⟨?_, ?_, ?_⟩
  · rw [withHeader_cell]; exact Header.values_add_self _ k v
  · rw [withUniqueHeader_cell]; exact Header.values_set_self _ k v
  · rw [withUniqueHeader_cell, Header.values_set_self]; rfl

/-- Decidable equality on Except, for evaluating results at concrete
inputs. -/
instance {ε α : Type} [DecidableEq ε] [DecidableEq α] : DecidableEq (Except ε α) := fun x y =>
  match x, y with
  | Except.ok a, Except.ok b =>
    if h : a = b then Decidable.isTrue (by rw [h])
    else Decidable.isFalse (fun he => by cases he; exact h rfl)
  | Except.error a, Except.error b =>
    if h : a = b then Decidable.isTrue (by rw [h])
    else Decidable.isFalse (fun he => by cases he; exact h rfl)
  | Except.ok _, Except.error _ => Decidable.isFalse (fun he => by cases he)
  | Except.error _, Except.ok _ => Decidable.isFalse (fun he => by cases he)

/-! ### Claim C3 (corrected: the cancel returned on the no-timeout path) -/

/-- A demo builder with a positive timeout. -/
def demoStreamT5 : StreamRequester := ⟨demoClient, 0, 5⟩

/-- C3 counterexample: on a builder whose timeout is not positive, Context
does not return the parent together with a cancel function: the cancel
component is nil (`none`), which would fault if invoked, rather than a
no-op function. -/
theorem claim_C3_nil_cancel_counterexample :
    ¬ ((StreamRequester.Context demoStream (some GoCtx.background) 0).1 = GoCtx.background ∧
       (StreamRequester.Context demoStream (some GoCtx.background) 0).2.isSome = true) := by
  decide

/-- C3 amended: Context wraps the parent with a deadline of now plus the
timeout (and returns a cancel function) when the timeout is positive;
otherwise it returns the parent unchanged together with a nil cancel. -/
theorem claim_C3_context_amended (req : StreamRequester) (parent : GoCtx) (now : Int) :
    (req.timeout > 0 →
      StreamRequester.Context req (some parent) now
        = (GoCtx.withDeadline parent (now + req.timeout), some Unit.unit)) ∧
    (req.timeout ≤ 0 →
      StreamRequester.Context req (some parent) now = (parent, none)) := by
  constructor
  · intro hpos
    simp [StreamRequester.Context, hpos]
  · intro hnp
    have hng : ¬ req.timeout > 0 := not_lt.mpr hnp
    simp [StreamRequester.Context, hng]

/-- Witness for C3 amended at a positive and at a zero timeout. -/
theorem claim_C3_context_amended_witness :
    StreamRequester.Context demoStreamT5 (some GoCtx.background) 100
      = (GoCtx.withDeadline GoCtx.background 105, some Unit.unit) ∧
    StreamRequester.Context demoStream (some (GoCtx.value 7)) 100
      = (GoCtx.value 7, none) :=
  ⟨(claim_C3_context_amended demoStreamT5 GoCtx.background 100).1 (by decide),
   (claim_C3_context_amended demoStream (GoCtx.value 7) 100).2 (by decide)⟩

/-! ### Middleware demo objects -/

/-- A middleware that rewrites the URL (succeeds, leaves the heap alone). -/
def demoMwOk : RequestMiddleware :=
  fun _ s q => (s, Except.ok { q with url := q.url ++ "?a=1" })

/-- A middleware that always fails (leaves the heap alone). -/
def demoMwErr : RequestMiddleware := fun _ s _ => (s, Except.error "boom")

/-- A middleware after the failing one; it must never influence Prepare. -/
def demoMwNever : RequestMiddleware := fun _ s q => (s, Except.ok q)

def demoClientMw : Client :=
  ⟨"https://localhost", some demoHTTPClient, 0, 0, [demoMwOk, demoMwErr, demoMwNever]⟩

def demoStreamMw : StreamRequester := ⟨demoClientMw, 0, 0⟩

/-! ### Claim C2 (corrected: a middleware can mutate the builder's bag) -/

/-- A middleware that performs Add on the request's header map and returns
the request: the map aliases the builder's own bag assigned in Prepare, so
this write mutates the builder. -/
def demoMwMutate : RequestMiddleware :=
  fun _ s q => (s.set q.headerRef ((s.get q.headerRef).add "X-Retry" "1"), Except.ok q)

def demoClientMutate : Client :=
  ⟨"https://localhost", some demoHTTPClient, 0, 0, [demoMwMutate]⟩

def demoStreamMutate : StreamRequester := ⟨demoClientMutate, 0, 0⟩

/-- One Do on the mutating-middleware builder, and a second Do of the same
builder value replayed on the heap the first call left behind. -/
def demoDoOnce : Store × Except String (Nat × BodyStream) :=
  StreamRequester.Do demoStore demoStreamMutate (some GoCtx.background) "GET" "x" ""

def demoDoTwice : Store × Except String (Nat × BodyStream) :=
  StreamRequester.Do demoDoOnce.1 demoStreamMutate (some GoCtx.background) "GET" "x" ""

/-- C2 counterexample: with a header-adding middleware registered, Do does
not leave the builder unchanged — after one Do the builder's own bag has
gained an X-Retry value through the aliased request header map — and the
replayed Do sends one more X-Retry value than the first call did, so the
two calls do not carry identical headers. -/
theorem claim_C2_mutating_middleware_counterexample :
    ¬ (demoDoOnce.1.get demoStreamMutate.headersRef
        = demoStore.get demoStreamMutate.headersRef) ∧
    (demoDoOnce.1.get demoStreamMutate.headersRef).values "X-Retry" = ["1"] ∧
    (demoDoTwice.1.get demoStreamMutate.headersRef).values "X-Retry" = ["1", "1"] := by
  decide

/-- Every middleware of the list leaves the heap unchanged. -/
def middlewaresPure (ms : List RequestMiddleware) : Prop :=
  ∀ mw ∈ ms, ∀ (o : Option GoCtx) (s : Store) (q : HttpRequest), (mw o s q).1 = s

/-- The middleware loop leaves the heap unchanged when every middleware
does. -/
theorem runMiddlewares_store_id (octx : Option GoCtx) :
    ∀ ms : List RequestMiddleware, middlewaresPure ms →
    ∀ (i : Nat) (s : Store) (q : HttpRequest),
      (runMiddlewares octx ms i s q).1 = s := by
  intro ms
  induction ms with
  | nil => intro _ i s q; rfl
  | cons m rest ih =>
    intro hmw i s q
    have hm : (m octx s q).1 = s := hmw m (List.mem_cons_self _ _) octx s q
    cases hq : m octx s q with
    | mk s1 r =>
      have hs1 : s1 = s := by rw [← hm, hq]
      cases r with
      | error e =>
        simp only [runMiddlewares, hq]
        exact hs1
      | ok q2 =>
        simp only [runMiddlewares, hq]
        rw [ih (fun mw h => hmw mw (List.mem_cons_of_mem _ h)) (i + 1) s1 q2]
        exact hs1

/-- Prepare leaves the heap — and so the builder's bag — unchanged when
every registered middleware does. -/
theorem prepare_store_id (s : Store) (B : StreamRequester) (octx : Option GoCtx)
    (method endpoint body : String) (hmw : middlewaresPure B.cli.middlewares) :
    (StreamRequester.Prepare s B octx method endpoint body).1 = s := by
  cases hv : B.validate with
  | some e => simp [StreamRequester.Prepare, hv]
  | none =>
    cases hn : newRequestWithContext octx method (B.cli.FullURL endpoint) body with
    | error e => simp [StreamRequester.Prepare, hv, hn]
    | ok q0 =>
      simp only [StreamRequester.Prepare, hv, hn]
      exact runMiddlewares_store_id octx _ hmw 0 s _

/-- Do leaves the heap unchanged when every registered middleware does. -/
theorem do_store_id (s : Store) (B : StreamRequester) (octx : Option GoCtx)
    (method endpoint body : String) (hmw : middlewaresPure B.cli.middlewares) :
    (StreamRequester.Do s B octx method endpoint body).1 = s := by
  have hp := prepare_store_id s B octx method endpoint body hmw
  cases hq : StreamRequester.Prepare s B octx method endpoint body with
  | mk s1 r =>
    have hs1 : s1 = s := by rw [← hp, hq]
    cases r with
    | error e =>
      simp only [StreamRequester.Do, hq]
      exact hs1
    | ok hreq =>
      cases hc : B.cli.conn with
      | none =>
        simp only [StreamRequester.Do, hq, hc]
        exact hs1
      | some c =>
        cases ht : c.transport s1 hreq with
        | error e =>
          simp only [StreamRequester.Do, hq, hc, ht]
          exact hs1
        | ok res =>
          simp only [StreamRequester.Do, hq, hc, ht]
          exact hs1

/-- C2 amended: Prepare and Do write nothing to the builder themselves;
its bag can change during consumption only through a registered middleware
writing via the aliased request header map. Whenever every registered
middleware leaves the heap unchanged — in particular on any
middleware-free builder — Prepare and Do leave the builder untouched: the
heap comes back as it went in, replaying Do on the heap the first call
left behind yields the identical outcome, and the bag at the builder's
reference is unchanged, so both calls carry identical headers. -/
theorem claim_C2_replay_amended (s : Store) (B : StreamRequester) (octx : Option GoCtx)
    (method endpoint body : String) (hmw : middlewaresPure B.cli.middlewares) :
    (StreamRequester.Prepare s B octx method endpoint body).1 = s ∧
    (StreamRequester.Do s B octx method endpoint body).1 = s ∧
    StreamRequester.Do ((StreamRequester.Do s B octx method endpoint body).1) B
        octx method endpoint body
      = StreamRequester.Do s B octx method endpoint body ∧
    (StreamRequester.Do s B octx method endpoint body).1.get B.headersRef
      = s.get B.headersRef := by
  have hp := prepare_store_id s B octx method endpoint body hmw
  have hd := do_store_id s B octx method endpoint body hmw
  refine ⟨hp, hd, ?_, ?_⟩
  · rw [hd]
  · rw [hd]

/-- Witness for C2 amended on a builder with three heap-preserving
middlewares registered. -/
theorem claim_C2_replay_amended_witness :
    middlewaresPure demoStreamMw.cli.middlewares ∧
    ((StreamRequester.Prepare demoStore demoStreamMw (some GoCtx.background) "GET" "x" "").1
      = demoStore ∧
    (StreamRequester.Do demoStore demoStreamMw (some GoCtx.background) "GET" "x" "").1
      = demoStore ∧
    StreamRequester.Do
        ((StreamRequester.Do demoStore demoStreamMw (some GoCtx.background) "GET" "x" "").1)
        demoStreamMw (some GoCtx.background) "GET" "x" ""
      = StreamRequester.Do demoStore demoStreamMw (some GoCtx.background) "GET" "x" "" ∧
    (StreamRequester.Do demoStore demoStreamMw (some GoCtx.background) "GET" "x" "").1.get
        demoStreamMw.headersRef
      = demoStore.get demoStreamMw.headersRef) := by
  have hmw : middlewaresPure demoStreamMw.cli.middlewares := by
    intro mw hmwm o s2 q
    have hm2 : mw ∈ [demoMwOk, demoMwErr, demoMwNever] := hmwm
    simp only [List.mem_cons, List.not_mem_nil, or_false] at hm2
    rcases hm2 with rfl | rfl | rfl <;> rfl
  exact ⟨hmw, claim_C2_replay_amended demoStore demoStreamMw (some GoCtx.background)
    "GET" "x" "" hmw⟩

/-! ### Claim C6 -/

/-- Splitting the middleware loop: running a concatenated list runs the
first part, and on success continues with the second part at the shifted
index from the heap the first part produced; an error in the first part
aborts the whole loop. -/
theorem runMiddlewares_append (octx : Option GoCtx)
    (ms1 ms2 : List RequestMiddleware) :
    ∀ (i : Nat) (s : Store) (q : HttpRequest),
    runMiddlewares octx (ms1 ++ ms2) i s q =
      match runMiddlewares octx ms1 i s q with
      | (s1, Except.ok q2) => runMiddlewares octx ms2 (i + ms1.length) s1 q2
      | (s1, Except.error e) => (s1, Except.error e) := by
  induction ms1 with
  | nil => intro i s q; simp [runMiddlewares]
  | cons m ms ih =>
    intro i s q
    cases hm : m octx s q with
    | mk s1 r =>
      cases r with
      | error e =>
        simp only [List.cons_append, runMiddlewares, hm]
      | ok q2 =>
        have step : runMiddlewares octx ((m :: ms) ++ ms2) i s q
            = runMiddlewares octx (ms ++ ms2) (i + 1) s1 q2 := by
          simp [runMiddlewares, hm]
        have stepR : runMiddlewares octx (m :: ms) i s q
            = runMiddlewares octx ms (i + 1) s1 q2 := by
          simp [runMiddlewares, hm]
        rw [step, stepR, ih]
        cases hr : runMiddlewares octx ms (i + 1) s1 q2 with
        | mk s2 r2 =>
          cases r2 with
          | error e => rfl
          | ok q3 =>
            show runMiddlewares octx ms2 (i + 1 + ms.length) s2 q3
              = runMiddlewares octx ms2 (i + (ms.length + 1)) s2 q3
            rw [Nat.add_assoc, Nat.add_comm 1 ms.length]

/-- C6: Prepare applies the header bag verbatim (the prepared request
carries the builder's own header map) and then runs the middlewares in
registration order from the given heap; the first middleware error aborts
the run, is wrapped with that middleware's index, and no later middleware
runs (the conclusion does not depend on ms2). -/
theorem claim_C6_prepare_middleware_chain (s : Store) (B : StreamRequester)
    (octx : Option GoCtx) (method endpoint body : String) (c : HTTPClient)
    (q0 : HttpRequest)
    (hconn : B.cli.conn = some c)
    (hnew : newRequestWithContext octx method (B.cli.FullURL endpoint) body
      = Except.ok q0) :
    (StreamRequester.Prepare s B octx method endpoint body
      = runMiddlewares octx B.cli.middlewares 0 s { q0 with headerRef := B.headersRef }) ∧
    (∀ (ms1 : List RequestMiddleware) (mw : RequestMiddleware)
        (ms2 : List RequestMiddleware) (s1 : Store) (q1 : HttpRequest)
        (s2 : Store) (e : String),
      B.cli.middlewares = ms1 ++ mw :: ms2 →
      runMiddlewares octx ms1 0 s { q0 with headerRef := B.headersRef }
        = (s1, Except.ok q1) →
      mw octx s1 q1 = (s2, Except.error e) →
      StreamRequester.Prepare s B octx method endpoint body
        = (s2, Except.error
            ("failed to run middleware [" ++ toString ms1.length ++ "]; " ++ e))) := by
  have hv : B.validate = none := by simp [StreamRequester.validate, hconn]
  have hmain : StreamRequester.Prepare s B octx method endpoint body
      = runMiddlewares octx B.cli.middlewares 0 s { q0 with headerRef := B.headersRef } := by
    simp [StreamRequester.Prepare, hv, hnew]
  refine ⟨hmain, ?_⟩
  intro ms1 mw ms2 s1 q1 s2 e hms hok herr
  rw [hmain, hms, runMiddlewares_append, hok]
  show runMiddlewares octx (mw :: ms2) (0 + ms1.length) s1 q1 = _
  simp [runMiddlewares, herr]

/-- Witness for C6: the failing middleware at index 1 aborts Prepare with
its index in the wrapped error, the heap passing through unchanged. -/
theorem claim_C6_prepare_middleware_chain_witness :
    StreamRequester.Prepare demoStore demoStreamMw (some GoCtx.background) "GET" "x" ""
      = (demoStore, Except.error "failed to run middleware [1]; boom") :=
  (claim_C6_prepare_middleware_chain demoStore demoStreamMw (some GoCtx.background)
      "GET" "x" "" demoHTTPClient ⟨GoCtx.background, "GET", "https://localhost/x", 0, ""⟩
      rfl (by decide)).2
    [demoMwOk] demoMwErr [demoMwNever] demoStore
    ⟨GoCtx.background, "GET", "https://localhost/x?a=1", 0, ""⟩ demoStore "boom"
    rfl (by decide) rfl

/-! ### Claim C7 -/

/-- C7: the buffered Do surfaces partial success: a successful transport
call whose body drain fails yields the status code together with the
wrapped read error; a failing Prepare or transport call yields a zero
status and no body alongside the error. -/
theorem claim_C7_buffered_do_error_paths (s : Store) (B : Requester) (now : Int)
    (octx : Option GoCtx) (method endpoint data : String) (c : HTTPClient) :
    (∀ (s1 : Store) (st : Nat) (e : String),
      StreamRequester.Do s B.core (some ((B.core.Context octx now).1)) method endpoint data
        = (s1, Except.ok (st, Except.error e)) →
      Requester.Do s B now octx method endpoint data
        = (s1, ⟨st, none, some ("error reading http body; " ++ e)⟩)) ∧
    (∀ (s1 : Store) (e : String),
      StreamRequester.Do s B.core (some ((B.core.Context octx now).1)) method endpoint data
        = (s1, Except.error e) →
      Requester.Do s B now octx method endpoint data = (s1, ⟨0, none, some e⟩)) ∧
    (∀ (s1 : Store) (e : String),
      StreamRequester.Prepare s B.core (some ((B.core.Context octx now).1)) method endpoint data
        = (s1, Except.error e) →
      Requester.Do s B now octx method endpoint data
        = (s1, ⟨0, none, some ("error creating request; " ++ e)⟩)) ∧
    (∀ (s1 : Store) (q : HttpRequest) (e : String),
      B.core.cli.conn = some c →
      StreamRequester.Prepare s B.core (some ((B.core.Context octx now).1)) method endpoint data
        = (s1, Except.ok q) →
      c.transport s1 q = Except.error e →
      Requester.Do s B now octx method endpoint data
        = (s1, ⟨0, none, some ("error running request; " ++ e)⟩)) := by
  refine ⟨?_, ?_, ?_, ?_⟩
  · intro s1 st e hdo
    simp [Requester.Do, hdo]
  · intro s1 e hdo
    simp [Requester.Do, hdo]
  · intro s1 e hprep
    simp [Requester.Do, StreamRequester.Do, hprep]
  · intro s1 q e hconn hprep htr
    simp [Requester.Do, StreamRequester.Do, hprep, hconn, htr]

/-- A transport whose response body fails to drain. -/
def demoBodyFailTransport : Transport :=
  fun _ _ => Except.ok ⟨200, Except.error "read fail"⟩

def demoClientBodyFail : Client :=
  ⟨"https://localhost", some ⟨demoBodyFailTransport, 0⟩, 0, 0, []⟩

def demoReqBodyFail : Requester := ⟨⟨demoClientBodyFail, 0, 0⟩⟩

/-- A transport that always fails to connect. -/
def demoDialFailTransport : Transport := fun _ _ => Except.error "dial fail"

def demoClientDialFail : Client :=
  ⟨"https://localhost", some ⟨demoDialFailTransport, 0⟩, 0, 0, []⟩

def demoReqDialFail : Requester := ⟨⟨demoClientDialFail, 0, 0⟩⟩

/-- Witness for C7: a drained-body failure keeps the 200 status next to the
read error; a transport failure gives status 0, no body, and the wrapped
transport error. -/
theorem claim_C7_buffered_do_error_paths_witness :
    Requester.Do demoStore demoReqBodyFail 0 (some GoCtx.background) "GET" "x" ""
      = (demoStore, ⟨200, none, some "error reading http body; read fail"⟩) ∧
    Requester.Do demoStore demoReqDialFail 0 (some GoCtx.background) "GET" "x" ""
      = (demoStore, ⟨0, none, some "error running request; dial fail"⟩) :=
  ⟨(claim_C7_buffered_do_error_paths demoStore demoReqBodyFail 0 (some GoCtx.background)
      "GET" "x" "" ⟨demoBodyFailTransport, 0⟩).1 demoStore 200 "read fail" (by decide),
   (claim_C7_buffered_do_error_paths demoStore demoReqDialFail 0 (some GoCtx.background)
      "GET" "x" "" ⟨demoDialFailTransport, 0⟩).2.2.2 demoStore
     ⟨GoCtx.background, "GET", "https://localhost/x", 0, ""⟩ "dial fail"
     rfl (by decide) rfl⟩

/-! ### Claim C8 -/

/-- C8: on the JSON builder a serialisation failure makes Prepare and Do
fail with the wrapped encoding error before any network activity: the heap
comes back untouched and the result is a constant (zero status, no body)
independent of the builder's client and transport, which are universally
quantified here. -/
theorem claim_C8_json_encode_error_before_network (s : Store) (B : JSONRequester)
    (now : Int) (octx : Option GoCtx) (method endpoint : String) (data : GoValue)
    (e : String) (henc : jsonMarshal data = Except.error e) :
    JSONRequester.Prepare s B octx method endpoint data
      = (s, Except.error ("invalid request body; " ++ e)) ∧
    JSONRequester.Do s B now octx method endpoint data
      = (s, ⟨0, none, some ("invalid request body; " ++ e)⟩) := by
  constructor
  · simp [JSONRequester.Prepare, henc]
  · simp [JSONRequester.Do, henc]

/-- Witness for C8 at a value json cannot encode. -/
theorem claim_C8_json_encode_error_before_network_witness :
    JSONRequester.Prepare demoStore ⟨⟨demoStream⟩⟩ (some GoCtx.background) "POST" "x"
        (GoValue.unsupported "chan int")
      = (demoStore, Except.error "invalid request body; json: unsupported type: chan int") ∧
    JSONRequester.Do demoStore ⟨⟨demoStream⟩⟩ 0 (some GoCtx.background) "POST" "x"
        (GoValue.unsupported "chan int")
      = (demoStore, ⟨0, none, some "invalid request body; json: unsupported type: chan int"⟩) :=
  claim_C8_json_encode_error_before_network demoStore ⟨⟨demoStream⟩⟩ 0
    (some GoCtx.background) "POST" "x" (GoValue.unsupported "chan int")
    "json: unsupported type: chan int" (by decide)

/-! ### Claim C10 -/

/-- When the caller supplies a header map, NewCustomClient keeps that very
reference as the default-header map and its only store write is the Add of
the derived User-Agent through it. -/
theorem NewCustomClient_shape (s : Store) (env : Env) (netw : Transport)
    (host : String) (o : ClientOptions) (r : Ref) (hr : o.headers = some r) :
    (NewCustomClient s env netw host o).1
      = s.set r ((s.get r).add "User-Agent" (userAgent env)) ∧
    (NewCustomClient s env netw host o).2.dheadersRef = r := by
  by_cases hmt : o.maxRequestTimeout == 0 <;>
    cases hc : o.conn <;>
      constructor <;>
        simp [NewCustomClient, ClientOptions.sanitize, hr, hc, hmt, apply_ite]

/-- C10: NewCustomClient appends (Add) the derived User-Agent value to the
options' header map: the client's default-header reference is the caller's
own map reference, whose User-Agent list afterwards is the caller's values
followed by the derived value — one value longer, appended at the end, and
visible through the caller's reference. -/
theorem claim_C10_user_agent_appended_by_reference (s : Store) (env : Env)
    (netw : Transport) (host : String) (o : ClientOptions) (r : Ref)
    (hr : o.headers = some r) (hlt : r < s.size) :
    (NewCustomClient s env netw host o).2.dheadersRef = r ∧
    ((NewCustomClient s env netw host o).1.get r).values "User-Agent"
      = (s.get r).values "User-Agent" ++ [userAgent env] ∧
    (((NewCustomClient s env netw host o).1.get r).values "User-Agent").length
      = ((s.get r).values "User-Agent").length + 1 := by
  obtain ⟨h1, h2⟩ := NewCustomClient_shape s env netw host o r hr
  refine ⟨h2, ?_, ?_⟩
  · rw [h1, Store.get_set_self _ _ _ hlt, Header.values_add_self]
  · rw [h1, Store.get_set_self _ _ _ hlt, Header.values_add_self]
    simp

/-- A caller-supplied environment snapshot for the witness. -/
def demoEnv : Env := ⟨"svc", "", "", Except.error "no user"⟩

def demoOptions : ClientOptions := ⟨none, 0, some 0, []⟩

/-- A store whose cell 0 is a caller map already holding one User-Agent. -/
def demoStoreUA : Store := ⟨[⟨[("User-Agent", ["custom/1"])]⟩]⟩

/-- Witness for C10: the caller's one User-Agent value gains the derived
value behind it, through the caller's own reference. -/
theorem claim_C10_user_agent_appended_by_reference_witness :
    (NewCustomClient demoStoreUA demoEnv demoTransport "https://localhost"
        demoOptions).2.dheadersRef = 0 ∧
    ((NewCustomClient demoStoreUA demoEnv demoTransport "https://localhost"
        demoOptions).1.get 0).values "User-Agent"
      = (demoStoreUA.get 0).values "User-Agent" ++ [userAgent demoEnv] ∧
    (((NewCustomClient demoStoreUA demoEnv demoTransport "https://localhost"
        demoOptions).1.get 0).values "User-Agent").length
      = ((demoStoreUA.get 0).values "User-Agent").length + 1 :=
  claim_C10_user_agent_appended_by_reference demoStoreUA demoEnv demoTransport
    "https://localhost" demoOptions 0 rfl (by decide)

/-! ### Claim C4 (corrected: mutators may target Content-Type) -/

theorem canonicalContentTypeKey :
    CanonicalMIMEHeaderKey "Content-Type" = "Content-Type" := by decide

/-- The pair (store, JSON builder) fresh from NewJSONRequest on the demo
client. -/
def demoJSONPair : Store × JSONRequester :=
  Client.NewJSONRequest demoStore demoClient []

/-- The demo JSON builder after a subsequent WithHeader targeting the
Content-Type key. -/
def demoJSONAfterCT : Store × JSONRequester :=
  JSONRequester.WithHeader demoJSONPair.1 demoJSONPair.2 "Content-Type" "application/json"

/-- C4 counterexample: a builder fresh from NewJSONRequest carries exactly
one Content-Type value, but a subsequent WithHeader on the Content-Type
key appends a second one, so after that With* operation the builder no
longer carries exactly one such value. -/
theorem claim_C4_content_type_counterexample :
    ((demoJSONPair.1.get demoJSONPair.2.core.core.headersRef).values "Content-Type"
      = ["application/json"]) ∧
    ((demoJSONAfterCT.1.get demoJSONAfterCT.2.core.core.headersRef).values "Content-Type"
      = ["application/json", "application/json"]) ∧
    ¬ (((demoJSONAfterCT.1.get demoJSONAfterCT.2.core.core.headersRef).values
        "Content-Type").length = 1) := by
  decide

/-- The invariant of C4: the JSON builder's header reference is live and
its Content-Type value list is exactly the one application/json entry. -/
def jsonCTInvariant (s : Store) (j : JSONRequester) : Prop :=
  j.core.core.headersRef < s.size ∧
  (s.get j.core.core.headersRef).values "Content-Type" = ["application/json"]

theorem foldl_set_values_ct : ∀ m : List (String × String),
    (∀ kv ∈ m, CanonicalMIMEHeaderKey kv.1 ≠ "Content-Type") →
    ∀ h : Header,
      (m.foldl (fun acc kv => acc.set kv.1 kv.2) h).values "Content-Type"
        = h.values "Content-Type" := by
  intro m
  induction m with
  | nil => intro _ h; rfl
  | cons kv rest ih =>
    intro hav h
    have hrest : ∀ p ∈ rest, CanonicalMIMEHeaderKey p.1 ≠ "Content-Type" :=
      fun p hp => hav p (List.mem_cons_of_mem _ hp)
    have hkv : CanonicalMIMEHeaderKey kv.1 ≠ CanonicalMIMEHeaderKey "Content-Type" := by
      rw [canonicalContentTypeKey]
      exact hav kv (List.mem_cons_self _ _)
    show (rest.foldl (fun acc kv => acc.set kv.1 kv.2) (h.set kv.1 kv.2)).values
        "Content-Type" = h.values "Content-Type"
    rw [ih hrest (h.set kv.1 kv.2), Header.values_set_ne _ _ _ _ hkv]

theorem JSONOp_apply_preserves (op : JSONOp) (s : Store) (j : JSONRequester)
    (hav : op.avoidsContentType) (hinv : jsonCTInvariant s j) :
    jsonCTInvariant (op.apply s j).1 (op.apply s j).2 := by
  obtain ⟨hlt, hct⟩ := hinv
  cases op with
  | withHeader k v =>
    have hsize : (StreamRequester.WithHeader s j.core.core k v).1.size = s.size + 1 :=
      HeaderOp.apply_size (HeaderOp.withHeader k v) s j.core.core
    have hcell := withHeader_cell s j.core.core k v
    have hne : CanonicalMIMEHeaderKey k ≠ CanonicalMIMEHeaderKey "Content-Type" := by
      rw [canonicalContentTypeKey]; exact hav
    constructor
    · show (StreamRequester.WithHeader s j.core.core k v).2.headersRef
        < (StreamRequester.WithHeader s j.core.core k v).1.size
      rw [hsize]
      show s.size < s.size + 1
      exact Nat.lt_succ_self _
    · show ((StreamRequester.WithHeader s j.core.core k v).1.get
          (StreamRequester.WithHeader s j.core.core k v).2.headersRef).values
          "Content-Type" = ["application/json"]
      rw [hcell, Header.values_add_ne _ _ _ _ hne]
      exact hct
  | withUniqueHeader k v =>
    have hsize : (StreamRequester.WithUniqueHeader s j.core.core k v).1.size = s.size + 1 :=
      HeaderOp.apply_size (HeaderOp.withUniqueHeader k v) s j.core.core
    have hcell := withUniqueHeader_cell s j.core.core k v
    have hne : CanonicalMIMEHeaderKey k ≠ CanonicalMIMEHeaderKey "Content-Type" := by
      rw [canonicalContentTypeKey]; exact hav
    constructor
    · show (StreamRequester.WithUniqueHeader s j.core.core k v).2.headersRef
        < (StreamRequester.WithUniqueHeader s j.core.core k v).1.size
      rw [hsize]
      show s.size < s.size + 1
      exact Nat.lt_succ_self _
    · show ((StreamRequester.WithUniqueHeader s j.core.core k v).1.get
          (StreamRequester.WithUniqueHeader s j.core.core k v).2.headersRef).values
          "Content-Type" = ["application/json"]
      rw [hcell, Header.values_set_ne _ _ _ _ hne]
      exact hct
  | withHeaders m =>
    have hsize : (StreamRequester.WithHeaders s j.core.core m).1.size = s.size + 1 :=
      HeaderOp.apply_size (HeaderOp.withHeaders m) s j.core.core
    have hcell := withHeaders_cell s j.core.core m
    constructor
    · show (StreamRequester.WithHeaders s j.core.core m).2.headersRef
        < (StreamRequester.WithHeaders s j.core.core m).1.size
      rw [hsize]
      show s.size < s.size + 1
      exact Nat.lt_succ_self _
    · show ((StreamRequester.WithHeaders s j.core.core m).1.get
          (StreamRequester.WithHeaders s j.core.core m).2.headersRef).values
          "Content-Type" = ["application/json"]
      rw [hcell, foldl_set_values_ct m hav]
      exact hct
  | withTimeout t =>
    exact ⟨hlt, hct⟩

theorem applyJSONOps_preserves : ∀ ops : List JSONOp,
    (∀ op ∈ ops, op.avoidsContentType) →
    ∀ p : Store × JSONRequester, jsonCTInvariant p.1 p.2 →
      jsonCTInvariant (applyJSONOps ops p).1 (applyJSONOps ops p).2 := by
  intro ops
  induction ops with
  | nil => intro _ p h; exact h
  | cons op rest ih =>
    intro hav p h
    show jsonCTInvariant (applyJSONOps rest (op.apply p.1 p.2)).1
      (applyJSONOps rest (op.apply p.1 p.2)).2
    exact ih (fun o ho => hav o (List.mem_cons_of_mem _ ho)) (op.apply p.1 p.2)
      (JSONOp_apply_preserves op p.1 p.2 (hav op (List.mem_cons_self _ _)) h)

theorem applyOptions_interp_ref (cli : Client) (c : ClientOption)
    (p : Store × StreamRequester) :
    ((ClientOption.interp cli c) p).2.headersRef = p.2.headersRef := by
  cases c with
  | requestTimeout t => rfl
  | requestHeaders m => rfl
  | requestHeader k v => rfl
  | requestUniqueHeader k v => rfl
  | withDefaultHeader k v =>
    by_cases hc : (p.1.get p.2.headersRef).get k ≠ ""
    · simp [ClientOption.interp, Client.WithDefaultHeader, hc]
    · simp [ClientOption.interp, Client.WithDefaultHeader, hc]

theorem applyOptions_interp_size (cli : Client) (c : ClientOption)
    (p : Store × StreamRequester) :
    ((ClientOption.interp cli c) p).1.size = p.1.size := by
  cases c with
  | requestTimeout t => rfl
  | requestHeaders m =>
    show (setAllHeaders _ _ _).size = _
    exact setAllHeaders_size _ _ _
  | requestHeader k v =>
    show (Store.set _ _ _).size = _
    exact Store.size_set _ _ _
  | requestUniqueHeader k v =>
    show (Store.set _ _ _).size = _
    exact Store.size_set _ _ _
  | withDefaultHeader k v =>
    by_cases hc : (p.1.get p.2.headersRef).get k ≠ ""
    · simp [ClientOption.interp, Client.WithDefaultHeader, hc]
    · simp [ClientOption.interp, Client.WithDefaultHeader, hc, Store.size_set]

theorem applyOptionsList_ref (cli : Client) : ∀ (cs : List ClientOption)
    (p : Store × StreamRequester),
    (applyOptions (cs.map (ClientOption.interp cli)) p).2.headersRef
      = p.2.headersRef := by
  intro cs
  induction cs with
  | nil => intro p; rfl
  | cons c rest ih =>
    intro p
    show (applyOptions (rest.map (ClientOption.interp cli))
        ((ClientOption.interp cli c) p)).2.headersRef = p.2.headersRef
    rw [ih, applyOptions_interp_ref]

theorem applyOptionsList_size (cli : Client) : ∀ (cs : List ClientOption)
    (p : Store × StreamRequester),
    (applyOptions (cs.map (ClientOption.interp cli)) p).1.size = p.1.size := by
  intro cs
  induction cs with
  | nil => intro p; rfl
  | cons c rest ih =>
    intro p
    show (applyOptions (rest.map (ClientOption.interp cli))
        ((ClientOption.interp cli c) p)).1.size = p.1.size
    rw [ih, applyOptions_interp_size]

/-- A JSON builder fresh from NewJSONRequest (under any of the client's
option constructors) satisfies the Content-Type invariant: the final Set
at construction leaves exactly the application/json value. -/
theorem NewJSONRequest_ct (s : Store) (cli : Client) (cs : List ClientOption) :
    jsonCTInvariant
      (Client.NewJSONRequest s cli (cs.map (ClientOption.interp cli))).1
      (Client.NewJSONRequest s cli (cs.map (ClientOption.interp cli))).2 := by
  have href : (Client.NewStreamRequest s cli (cs.map (ClientOption.interp cli))).2.headersRef
      = s.size := by
    show (applyOptions (cs.map (ClientOption.interp cli))
        ((s.alloc (s.get cli.dheadersRef)).1,
         { cli := cli, headersRef := (s.alloc (s.get cli.dheadersRef)).2, timeout := 0 })).2.headersRef
      = s.size
    rw [applyOptionsList_ref]
    rfl
  have hsize : (Client.NewStreamRequest s cli (cs.map (ClientOption.interp cli))).1.size
      = s.size + 1 := by
    show (applyOptions (cs.map (ClientOption.interp cli))
        ((s.alloc (s.get cli.dheadersRef)).1,
         { cli := cli, headersRef := (s.alloc (s.get cli.dheadersRef)).2, timeout := 0 })).1.size
      = s.size + 1
    rw [applyOptionsList_size]
    exact Store.size_alloc s _
  have hlive : (Client.NewStreamRequest s cli (cs.map (ClientOption.interp cli))).2.headersRef
      < (Client.NewStreamRequest s cli (cs.map (ClientOption.interp cli))).1.size := by
    rw [href, hsize]
    exact Nat.lt_succ_self _
  constructor
  · show (Client.NewStreamRequest s cli (cs.map (ClientOption.interp cli))).2.headersRef
      < ((Client.NewStreamRequest s cli (cs.map (ClientOption.interp cli))).1.set
          (Client.NewStreamRequest s cli (cs.map (ClientOption.interp cli))).2.headersRef
          (((Client.NewStreamRequest s cli (cs.map (ClientOption.interp cli))).1.get
            (Client.NewStreamRequest s cli (cs.map (ClientOption.interp cli))).2.headersRef).set
            "Content-Type" "application/json")).size
    rw [Store.size_set]
    exact hlive
  · show (((Client.NewStreamRequest s cli (cs.map (ClientOption.interp cli))).1.set
        (Client.NewStreamRequest s cli (cs.map (ClientOption.interp cli))).2.headersRef
        (((Client.NewStreamRequest s cli (cs.map (ClientOption.interp cli))).1.get
          (Client.NewStreamRequest s cli (cs.map (ClientOption.interp cli))).2.headersRef).set
          "Content-Type" "application/json")).get
        (Client.NewStreamRequest s cli (cs.map (ClientOption.interp cli))).2.headersRef).values
        "Content-Type" = ["application/json"]
    rw [Store.get_set_self _ _ _ hlive]
    exact Header.values_set_self _ _ _

/-- C4 amended: a builder created by NewJSONRequest carries exactly one
Content-Type value, application/json, set once at construction, and it
still carries exactly that one value after any subsequent sequence of
With* operations whose keys do not canonicalise to Content-Type (a With*
that targets Content-Type itself can add or replace values). -/
theorem claim_C4_content_type_amended (s : Store) (cli : Client)
    (cs : List ClientOption) (ops : List JSONOp)
    (hav : ∀ op ∈ ops, op.avoidsContentType) :
    ((applyJSONOps ops
        (Client.NewJSONRequest s cli (cs.map (ClientOption.interp cli)))).1.get
      (applyJSONOps ops
        (Client.NewJSONRequest s cli (cs.map (ClientOption.interp cli)))).2.core.core.headersRef).values
      "Content-Type" = ["application/json"] ∧
    (((applyJSONOps ops
        (Client.NewJSONRequest s cli (cs.map (ClientOption.interp cli)))).1.get
      (applyJSONOps ops
        (Client.NewJSONRequest s cli (cs.map (ClientOption.interp cli)))).2.core.core.headersRef).values
      "Content-Type").length = 1 := by
  have h := applyJSONOps_preserves ops hav
    (Client.NewJSONRequest s cli (cs.map (ClientOption.interp cli)))
    (NewJSONRequest_ct s cli cs)
  refine ⟨h.2, ?_⟩
  rw [h.2]
  rfl

/-- Witness for C4 amended: one client option and two Content-Type-avoiding
mutators preserve the single application/json value. -/
theorem claim_C4_content_type_amended_witness :
    (∀ op ∈ ([JSONOp.withHeader "X-B" "2", JSONOp.withTimeout 9] : List JSONOp),
      op.avoidsContentType) ∧
    ((applyJSONOps [JSONOp.withHeader "X-B" "2", JSONOp.withTimeout 9]
        (Client.NewJSONRequest demoStore demoClient
          ([ClientOption.requestHeader "X-A" "1"].map (ClientOption.interp demoClient)))).1.get
      (applyJSONOps [JSONOp.withHeader "X-B" "2", JSONOp.withTimeout 9]
        (Client.NewJSONRequest demoStore demoClient
          ([ClientOption.requestHeader "X-A" "1"].map
            (ClientOption.interp demoClient)))).2.core.core.headersRef).values
      "Content-Type" = ["application/json"] := by
  have hav : ∀ op ∈ ([JSONOp.withHeader "X-B" "2", JSONOp.withTimeout 9] : List JSONOp),
      op.avoidsContentType := by
    intro op hop
    simp only [List.mem_cons, List.not_mem_nil, or_false] at hop
    rcases hop with rfl | rfl
    · show CanonicalMIMEHeaderKey "X-B" ≠ "Content-Type"
      decide
    · trivial
  exact ⟨hav, (claim_C4_content_type_amended demoStore demoClient
    [ClientOption.requestHeader "X-A" "1"]
    [JSONOp.withHeader "X-B" "2", JSONOp.withTimeout 9] hav).1⟩

end Webservice
